import Mathlib

/-!
Verification of the fleet execution and scheduling engine of the `network`
repository (backend/app/services).  The Python source is shallowly embedded:

* Python `dict` objects (which preserve insertion order, and whose `update`
  keeps the position of an overridden key) are embedded as association lists
  with explicitly order-preserving `dictSet`/`dictUpdate` operations;
* `str` helpers (`startswith`, `endswith`, `splitlines`, `strip`, `in`)
  are embedded as computable functions over the character list of a string;
* the Nornir `Result` / `MultiResult` values handled by
  `services/nornir/results.py` are embedded as an inductive value type that
  keeps exactly the structure the formatting code inspects (string payloads,
  primitive/structured payloads, nested multi-step results, other objects);
* effectful code (task runner, scheduler) is embedded as explicit state
  passing: each function takes the data it would read and returns the new
  row states / emitted actions.
-/

namespace Network

/-! ## Python string helpers -/

/-- Python `command.startswith(pre)`. -/
def pyStartsWith (s pre : String) : Bool :=
  pre.data.isPrefixOf s.data

/-- Python `pattern.endswith(suf)`. -/
def pyEndsWith (s suf : String) : Bool :=
  suf.data.isSuffixOf s.data

/-- Python `pattern[:-1]` (drop the final character). -/
def pyDropLast (s : String) : String :=
  ⟨s.data.dropLast⟩

/-- Tests that `needle` occurs as a contiguous run inside `hay`. -/
def charsContain (needle : List Char) : List Char → Bool
  | [] => needle.isEmpty
  | c :: rest => needle.isPrefixOf (c :: rest) || charsContain needle rest

/-- Python `sub in s` for strings. -/
def pyContains (s sub : String) : Bool :=
  charsContain sub.data s.data

/-- Whitespace characters stripped by Python `str.strip()`. -/
def isPySpace (c : Char) : Bool :=
  c == ' ' || c == '\t' || c == '\n' || c == '\r' || c == '\x0b' || c == '\x0c'

/-- Python `str.strip()`. -/
def pyStrip (s : String) : String :=
  ⟨((s.data.dropWhile isPySpace).reverse.dropWhile isPySpace).reverse⟩

/-- Python `str.splitlines()` (the source only ever feeds `\n`-separated text). -/
def pySplitLines (s : String) : List String :=
  (s.data.splitOn '\n').map fun cs => ⟨cs⟩

/-! ## Python dict model (insertion ordered association lists) -/

/-- A Python `dict` with string keys: an association list in insertion order. -/
abbrev PyDict (α : Type) := List (String × α)

/-- Python `d[k] = v`: overwrite in place when `k` is present, else append. -/
def dictSet {α} (d : PyDict α) (k : String) (v : α) : PyDict α :=
  if d.any (fun p => p.1 == k) then
    d.map (fun p => if p.1 == k then (k, v) else p)
  else
    d ++ [(k, v)]

/-- Python `d.update(e)`: apply `dictSet` for each entry of `e` in order. -/
def dictUpdate {α} (d e : PyDict α) : PyDict α :=
  e.foldl (fun acc p => dictSet acc p.1 p.2) d

/-- Python `d.get(k)` / `d[k]` (first entry wins; `dictSet` keeps keys unique). -/
def dictGet {α} (d : PyDict α) (k : String) : Option α :=
  (d.find? (fun p => p.1 == k)).map (fun p => p.2)

/-! ## services/nornir/timeouts.py -/

/-- The three layers of `command_timeouts` data consulted by
`resolve_timeout_ops_for_command`: `host.defaults.data["command_timeouts"]`,
`group.data["command_timeouts"]` for each of `host.extended_groups()`, and
`host.data["command_timeouts"]` (each defaulting to `{}` when missing).
Timeout values are the JSON numbers stored in the database. -/
structure TimeoutHost where
  defaults_command_timeouts : PyDict Nat
  group_command_timeouts : List (PyDict Nat)
  host_command_timeouts : PyDict Nat
deriving DecidableEq, Repr

/-- The `merged` dict built by `resolve_timeout_ops_for_command`:
start from `{}`, `update` with the defaults layer, then each group layer,
then the host layer. -/
def mergedTimeouts (h : TimeoutHost) : PyDict Nat :=
  dictUpdate
    (h.group_command_timeouts.foldl dictUpdate
      (dictUpdate [] h.defaults_command_timeouts))
    h.host_command_timeouts

/-- The wildcard test of `resolve_timeout_ops_for_command`:
`pattern.endswith("*") and command.startswith(pattern[:-1])`. -/
def wildcardMatches (command pattern : String) : Bool :=
  pyEndsWith pattern "*" && pyStartsWith command (pyDropLast pattern)

/-- Embeds `services/nornir/timeouts.py::resolve_timeout_ops_for_command`:
exact lookup in the merged dict first, otherwise the first wildcard pattern
(in dict iteration order) whose prefix matches, otherwise `None`. -/
def resolve_timeout_ops_for_command (h : TimeoutHost) (command : String) : Option Nat :=
  let merged := mergedTimeouts h
  if merged.isEmpty then none
  else
    match dictGet merged command with
    | some v => some v
    | none => (merged.find? (fun p => wildcardMatches command p.1)).map (fun p => p.2)

/-- Modelled from the spec/claim wording for the wildcard fallback of the
Timeout Policy: among all patterns ending in `*` whose prefix is a prefix of
the command, return the value of the LONGEST such pattern. -/
def longestWildcardValue (merged : PyDict Nat) (command : String) : Option Nat :=
  ((merged.filter (fun p => wildcardMatches command p.1)).foldl
    (fun best p =>
      match best with
      | none => some p
      | some q => if q.1.length < p.1.length then some p else best)
    none).map (fun p => p.2)

/-- Modelled from the spec/claim wording for claim C6: exact match first,
otherwise the longest prefix-matching wildcard pattern, otherwise none. -/
def spec_resolve_longest (h : TimeoutHost) (command : String) : Option Nat :=
  let merged := mergedTimeouts h
  match dictGet merged command with
  | some v => some v
  | none => longestWildcardValue merged command

/-- Host used for the C6 counterexample: a single host-layer rule map whose
shorter wildcard pattern was inserted before the longer one. -/
def c6host : TimeoutHost :=
  { defaults_command_timeouts := []
    group_command_timeouts := []
    host_command_timeouts := [("show*", 10), ("show ip*", 20)] }

/-- Layered rule maps of claim C8: Defaults `{"show ip*": 60}`,
Group `{"show ip route": 90}`, Host `{}`. -/
def c8host : TimeoutHost :=
  { defaults_command_timeouts := [("show ip*", 60)]
    group_command_timeouts := [[("show ip route", 90)]]
    host_command_timeouts := [] }

/-! ## services/nornir/results.py -/

/-- The `result` payload of a Nornir `Result`, classified exactly as the
formatting code inspects it: a string (whose text matters for the
"Traceback" checks), another primitive (`None`/`int`/`float`/`bool`), a
structured `dict`/`list` value, a nested `MultiResult`, or any other Python
object (which is neither a primitive nor a `MultiResult`). -/
inductive RVal where
  | vnone
  | vstr (s : String)
  | vint (n : Int)
  | vbool (b : Bool)
  | vstruct
  | vmulti
  | vother
deriving DecidableEq, Repr

/-- Python `isinstance(x, MultiResult)`. -/
def isMultiValue : RVal → Bool
  | .vmulti => true
  | _ => false

/-- Python `isinstance(x, (dict, list, str, int, float, bool, type(None)))`. -/
def isPyPrimOrStruct : RVal → Bool
  | .vnone | .vstr _ | .vint _ | .vbool _ | .vstruct => true
  | .vmulti | .vother => false

/-- One Nornir `Result` as consumed by `format_results`: its payload, the
string form of its exception when one is attached (an attached exception
object is truthy even when its text is empty, hence `Option`), and the
`failed` / `changed` / `diff` attributes. -/
structure ResultR where
  result : RVal
  exception : Option String
  failed : Bool
  changed : Bool
  diff : Option String
deriving DecidableEq, Repr

/-- A per-host value of the dict passed to `format_results`: either a plain
`Result` or a `MultiResult` (a list of sub-step `Result`s; its `failed`
property is true when any sub-step failed). -/
inductive HostRes where
  | single (r : ResultR)
  | multi (rs : List ResultR)
deriving DecidableEq, Repr

/-- The canonical per-host envelope both branches of `format_results`
produce: `{status, result, failed, exception, diff, changed}`. -/
structure Envelope where
  status : String
  result : RVal
  failed : Bool
  exception : Option String
  diff : Option String
  changed : Bool
deriving DecidableEq, Repr

/-- Python `isinstance(r.result, str) and "Traceback" in str(r.result)`. -/
def hasTraceStr (r : ResultR) : Bool :=
  match r.result with
  | .vstr s => pyContains s "Traceback"
  | _ => false

/-- The `for r in reversed(host_result)` loop of `format_results`: walking
the given list, stop at the first sub-step that carries an exception, or
failing that test, whose string result contains "Traceback". -/
def scanExceptionCandidate : List ResultR → Option ResultR
  | [] => none
  | r :: rest =>
    if r.exception.isSome then some r
    else if hasTraceStr r then some r
    else scanExceptionCandidate rest

/-- Python truthiness of the exception text: `None` and `""` are falsy. -/
def pyFalsyStr : Option String → Bool
  | none => true
  | some s => s == ""

/-- Python `[ln.strip() for ln in text.splitlines() if ln.strip()]` followed by
`lines[-1]`. -/
def lastNonEmptyLine (text : String) : Option String :=
  (((pySplitLines text).map pyStrip).filter (fun l => l ≠ "")).getLast?

/-- Lines 81-87 of `results.py`: the envelope exception is the primary's
exception text; when that is falsy and the primary's string result contains
"Traceback", it becomes the last non-empty line of that text. -/
def derive_exception (primary : Option ResultR) : Option String :=
  let exc0 := primary.bind (fun r => r.exception)
  if pyFalsyStr exc0 then
    match primary with
    | some p =>
      match p.result with
      | .vstr text =>
        if pyContains text "Traceback" then
          match lastNonEmptyLine text with
          | some l => some l
          | none => exc0
        else exc0
      | _ => exc0
    | none => exc0
  else exc0

/-- The `MultiResult` branch of `format_results` (lines 57-100):
primary selection, exception derivation, `changed`/`diff` aggregation. -/
def formatMulti (rs : List ResultR) : Envelope :=
  let leaf : Option ResultR := rs.getLast?
  let primary : Option ResultR :=
    match scanExceptionCandidate rs.reverse with
    | some c => some c
    | none =>
      match rs.head? with
      | some parent =>
        if !isMultiValue parent.result && isPyPrimOrStruct parent.result then
          some parent
        else leaf
      | none => leaf
  let mfailed := rs.any (fun r => r.failed)
  let changed := rs.any (fun r => r.changed)
  let diffs := rs.filterMap (fun r =>
    match r.diff with
    | some d => if d = "" then none else some d
    | none => none)
  { status := if mfailed then "failed" else "success"
    result := ((primary.map (fun r => r.result)).getD .vnone)
    failed := mfailed
    exception := derive_exception primary
    diff := some (if diffs.isEmpty then "" else String.intercalate "\n" diffs)
    changed := changed }

/-- The plain-`Result` branch of `format_results` (lines 103-111). -/
def formatSingle (r : ResultR) : Envelope :=
  { status := if r.failed then "failed" else "success"
    result := r.result
    failed := r.failed
    exception := r.exception
    diff := r.diff
    changed := r.changed }

/-- Embeds `services/nornir/results.py::format_results`. -/
def format_results (results : List (String × HostRes)) : List (String × Envelope) :=
  results.map (fun p =>
    (p.1, match p.2 with
          | .single r => formatSingle r
          | .multi rs => formatMulti rs))

/-- The envelope synthesized by `ensure_host_results` for a requested host
with no returned result. -/
def fallbackEnvelope : Envelope :=
  { status := "failed"
    result := .vnone
    failed := true
    exception := some "未返回结果（可能是过滤/热重载导致的空结果）"
    diff := some ""
    changed := false }

/-- Python `host in formatted`: the host already has an entry. -/
def hasHostKey (m : List (String × Envelope)) (k : String) : Bool :=
  m.any (fun p => p.1 == k)

/-- Embeds `services/nornir/results.py::ensure_host_results`: when some requested
host is missing from the formatted dict, `setdefault` a failed fallback
envelope for every missing host. -/
def ensure_host_results (formatted : List (String × Envelope))
    (requested : List String) : List (String × Envelope) :=
  if requested.isEmpty then formatted
  else if !formatted.isEmpty && requested.all (fun h => hasHostKey formatted h) then
    formatted
  else
    requested.foldl
      (fun m h => if hasHostKey m h then m else m ++ [(h, fallbackEnvelope)])
      formatted

/-- The shared tail of every dispatch operation in
`services/nornir/device_ops.py` (`run_send_command`, `run_send_config`,
`run_get_facts`, `run_get_interfaces`, `run_test_connectivity`,
`run_get_running_config`):
`ensure_host_results(format_results(result), hosts, ...)`. -/
def dispatch_results (raw : List (String × HostRes)) (hosts : List String) :
    List (String × Envelope) :=
  ensure_host_results (format_results raw) hosts

/-- Modelled from the claim C7 wording: the primary sub-step is, first
preference, the LAST sub-step carrying an explicit error; otherwise a
sub-step whose textual result contains a stack-trace marker (the last such,
any choice refutes the same way); otherwise the first sub-step provided its
result is a primitive or structured value (not a nested multi-step
result). -/
def claimed_primary (rs : List ResultR) : Option ResultR :=
  match (rs.filter (fun r => r.exception.isSome)).getLast? with
  | some c => some c
  | none =>
    match (rs.filter hasTraceStr).getLast? with
    | some c => some c
    | none =>
      match rs.head? with
      | some parent =>
        if !isMultiValue parent.result && isPyPrimOrStruct parent.result then
          some parent
        else rs.getLast?
      | none => none

/-- The envelope exception claim C7 predicts: derived from the claimed
primary with the (correct) derivation rule of lines 81-87. -/
def claimed_exception (rs : List ResultR) : Option String :=
  derive_exception (claimed_primary rs)

/-- The amended primary-selection rule actually implemented: scanning
sub-steps from last to first, the first one that carries an explicit error
OR whose textual result contains "Traceback" (i.e. the last sub-step
satisfying that disjunction); otherwise the first sub-step when its result
is a primitive or structured value, else the last sub-step. -/
def amended_primary (rs : List ResultR) : Option ResultR :=
  match (rs.filter (fun r => r.exception.isSome || hasTraceStr r)).getLast? with
  | some c => some c
  | none =>
    match rs.head? with
    | some parent =>
      if !isMultiValue parent.result && isPyPrimOrStruct parent.result then
        some parent
      else rs.getLast?
    | none => none

/-- A multi-step chain where an earlier sub-step carries an explicit error
and a later sub-step only carries a Traceback-marked string result. -/
def cex7r1 : ResultR :=
  { result := .vstr "step one output"
    exception := some "boom"
    failed := true
    changed := false
    diff := none }

/-- The later sub-step of the C7 counterexample chain. -/
def cex7r2 : ResultR :=
  { result := .vstr "Traceback (most recent call last):\n  ValueError: bad value"
    exception := none
    failed := false
    changed := false
    diff := none }

/-- The C7 counterexample chain. -/
def cex7 : List ResultR := [cex7r1, cex7r2]

/-! ## services/nornir/commands.py, inventory_ops.py and the pre-flight of
device_ops.py -/

/-- Embeds `services/nornir/commands.py::split_commands`: strip each line of the
command text and keep the non-empty ones. -/
def split_commands (command : String) : List String :=
  ((pySplitLines command).map pyStrip).filter (fun c => c ≠ "")

/-- Embeds `services/nornir/inventory_ops.py::validate_hosts_exist`: collect the
requested hosts missing from `nr.inventory.hosts` and raise
`ValueError(f"主机不存在: {missing_hosts}")` when there are any. -/
def validate_hosts_exist (inventory : List String) (hosts : List String) :
    Except String Unit :=
  let missing := hosts.filter (fun h => !inventory.contains h)
  if missing.isEmpty then .ok ()
  else .error ("主机不存在: " ++ toString missing)

/-- Embeds `services/nornir/device_ops.py::run_send_command` around its dispatch:
split the command text (empty command fails first), validate that every
requested host exists (before any per-host work), then run the per-host
tasks on the filtered inventory — `rawRun` stands for the framework's
per-host fan-out, which only ever happens after validation passed — and
post-process with `format_results` / `ensure_host_results`. -/
def run_send_command (inventory : List String) (hosts : List String)
    (command : String) (rawRun : List (String × HostRes)) :
    Except String (List (String × Envelope)) :=
  let commands := split_commands command
  if commands.isEmpty then .error "命令不能为空"
  else
    match validate_hosts_exist inventory hosts with
    | .error e => .error e
    | .ok _ => .ok (dispatch_results rawRun hosts)

/-! ## services/nornir/device_ops.py: the multi-command loop of
`run_send_command`'s `per_host_task` -/

/-- Python `a or b` for an optional error text and the fallback `str(e)`:
`None` and `""` are falsy. -/
def pyOrStr (a : Option String) (b : String) : String :=
  match a with
  | some s => if s = "" then b else s
  | none => b

/-- The outcome of one `task.run(task=send_command, ...)` sub-call inside the
loop: either it returns (the framework `MultiResult`, of which the code reads
the last sub-result's payload, `none` when the chain is empty), or it raises
`NornirSubTaskError e` (with the error text extracted from `e.result`, and
`str(e)` as fallback). -/
inductive CmdOutcome where
  | success (out : Option String)
  | failure (subErr : Option String) (eStr : String)
deriving DecidableEq, Repr

/-- Whether the sub-call raised. -/
def isFailureOutcome : CmdOutcome → Bool
  | .success _ => false
  | .failure _ _ => true

/-- One entry of the structured `items` list: `{"command", "failed",
"result"}` on success, `{"command", "failed", "exception"}` on failure
(the absent key is `none`). -/
structure CmdItem where
  command : String
  failed : Bool
  result : Option String
  exception : Option String
deriving DecidableEq, Repr

/-- The `for cmd in commands` loop of `per_host_task` (lines 45-67):
build `items` in order and count failed commands. -/
def multi_command_items : List (String × CmdOutcome) → List CmdItem × Nat
  | [] => ([], 0)
  | (cmd, .success out) :: rest =>
    let acc := multi_command_items rest
    ({ command := cmd, failed := false, result := out, exception := none } :: acc.1,
     acc.2)
  | (cmd, .failure subErr eStr) :: rest =>
    let acc := multi_command_items rest
    ({ command := cmd, failed := true, result := none,
       exception := some (pyOrStr subErr eStr) } :: acc.1,
     acc.2 + 1)

/-- The per-host `Result` the multi-command branch returns (lines 69-74):
`result={"commands": items}`, `failed=failed_count > 0`, and
`exception=RuntimeError(f"{failed_count} 个命令执行失败")` when any command
failed. -/
structure PerHostMulti where
  commands : List CmdItem
  failed : Bool
  exception : Option String
deriving DecidableEq, Repr

/-- Embeds `per_host_task` on a multi-command sequence, as a function of each
command's sub-call outcome. -/
def per_host_task_multi (outcomes : List (String × CmdOutcome)) : PerHostMulti :=
  let acc := multi_command_items outcomes
  { commands := acc.1
    failed := decide (0 < acc.2)
    exception :=
      if 0 < acc.2 then some (toString acc.2 ++ " 个命令执行失败") else none }

/-! ## services/task_runner.py -/

/-- Embeds `task_runner.py::_truncate_text`: cap raw output at 20000 characters,
appending a truncation marker. -/
def truncate_text (value : String) : String :=
  if value.length ≤ 20000 then value
  else ⟨value.data.take 20000⟩ ++ "\n...<truncated>..."

/-- One `TaskLog` row written by `TaskRunner._persist_task_logs` (the
structured copy of the envelope minus its bulky `result` key is not
modelled; device, status, truncated raw output and error text are). -/
structure TaskLogRow where
  device_name : String
  status : String
  raw_output : Option String
  error_message : Option String
deriving DecidableEq, Repr

/-- Embeds `TaskRunner._persist_task_logs`: one row per per-host envelope. -/
def persist_task_logs (results : List (String × Envelope)) : List TaskLogRow :=
  results.map (fun p =>
    { device_name := p.1
      status := if p.2.failed then "failed" else "success"
      raw_output :=
        match p.2.result with
        | .vstr s => some (truncate_text s)
        | _ => none
      error_message :=
        match p.2.exception with
        | some e => if e = "" then none else some e
        | none => none })

/-- The columns of a `Task` row read and written by
`TaskRunner._execute_task`. -/
structure JobState where
  status : String
  started_at : Option Nat
  completed_at : Option Nat
  error_message : Option String
  results : Option (List (String × Envelope))
deriving DecidableEq, Repr

/-- The dispatch step `_run_payload` as seen by `_execute_task`: either it
returns the per-host envelope map or it raises with text `msg`. -/
inductive DispatchOutcome where
  | ok (results : List (String × Envelope))
  | exc (msg : String)
deriving DecidableEq, Repr

/-- Everything `_execute_task` did: the final job row, whether prior
`TaskLog` rows of this job were purged, the rows written afterwards,
whether the dispatch path was invoked at all, and the exception re-raised
to the worker loop. -/
structure ExecEffects where
  job : Option JobState
  purged_logs : Bool
  written_logs : List TaskLogRow
  dispatched : Bool
  raised : Option String
deriving DecidableEq, Repr

/-- Embeds `services/task_runner.py::TaskRunner._execute_task` (lines 83-119):
reload the job (`none` = id not found); non-`pending` jobs are a no-op;
otherwise purge old logs, mark running (clearing prior results/errors),
dispatch, and set the terminal status — `failed` when any envelope failed
or when the dispatch raised (re-raising in that case).  `now` stands for
`_utc_now()` (start and completion reads merged; no claim depends on their
difference). -/
def execute_task (job : Option JobState) (now : Nat)
    (outcome : DispatchOutcome) : ExecEffects :=
  match job with
  | none =>
    { job := none, purged_logs := false, written_logs := [],
      dispatched := false, raised := none }
  | some t =>
    if t.status ≠ "pending" then
      { job := some t, purged_logs := false, written_logs := [],
        dispatched := false, raised := none }
    else
      let t1 : JobState :=
        { t with
          status := "running"
          started_at := some now
          completed_at := none
          error_message := none
          results := some [] }
      match outcome with
      | .ok results =>
        let failed := results.any (fun p => p.2.failed)
        { job := some { t1 with
            results := some results
            status := if failed then "failed" else "completed"
            completed_at := some now }
          purged_logs := true
          written_logs := persist_task_logs results
          dispatched := true
          raised := none }
      | .exc msg =>
        { job := some { t1 with
            status := "failed"
            error_message := some msg
            completed_at := some now }
          purged_logs := true
          written_logs := []
          dispatched := true
          raised := some msg }

/-! ## services/config_backup_scheduler.py -/

/-- The columns of a `ConfigBackupSchedule` row touched by `_run_one`. -/
structure ScheduleState where
  enabled : Bool
  interval_minutes : Nat
  last_run_at : Option Nat
  next_run_at : Option Nat
  last_status : Option String
  last_error : Option String
deriving DecidableEq, Repr

/-- The terminal fields of the `ConfigBackupRun` audit row of one run. -/
structure RunRow where
  status : String
  error_message : Option String
  completed_at : Option Nat
deriving DecidableEq, Repr

/-- The `save_running_config_snapshots` call as seen by `_run_one`: each
per-device result dict is represented by its `failed` field, or the whole
call raises with text `msg`. -/
inductive SnapshotOutcome where
  | ok (results : List (String × Bool))
  | exc (msg : String)
deriving DecidableEq, Repr

/-- Embeds `ConfigBackupScheduler._run_one` (lines 94-144): reload the schedule
(gone or disabled is a no-op); otherwise run the snapshot and — success or
exception — set `last_run_at=now`, `last_status`, `last_error` (null on a
normal return) and `next_run_at = now + interval`.  Time is in seconds
(`timedelta(minutes=n)` = `60 * n`); `now` is read before the try block and
used by both branches. -/
def scheduler_run_one (schedule : Option ScheduleState) (now : Nat)
    (outcome : SnapshotOutcome) : Option ScheduleState × Option RunRow :=
  match schedule with
  | none => (none, none)
  | some s =>
    if !s.enabled then (some s, none)
    else
      match outcome with
      | .ok results =>
        let failedN := results.countP (fun p => !(p.2 == false))
        let st := if failedN = 0 then "completed" else "failed"
        (some { s with
            last_run_at := some now
            last_status := some st
            last_error := none
            next_run_at := some (now + 60 * s.interval_minutes) },
         some { status := st, error_message := none, completed_at := some now })
      | .exc msg =>
        (some { s with
            last_run_at := some now
            last_status := some "failed"
            last_error := some msg
            next_run_at := some (now + 60 * s.interval_minutes) },
         some { status := "failed"
                error_message := some msg
                completed_at := some now })

/-- The externally visible steps of one `ConfigBackupScheduler._tick`. -/
inductive TickAction where
  | tryAdvisoryLock (key : Nat) (granted : Bool)
  | queryDueSchedules
  | runSchedule (sid : Nat)
  | advisoryUnlock (key : Nat)
deriving DecidableEq, Repr

/-- The `for schedule in schedules` loop of `_tick`: run each due schedule
in order until an exception escapes one `_run_one` call. -/
def run_due_schedules (runResult : Nat → Except String Unit) :
    List Nat → List TickAction × Option String
  | [] => ([], none)
  | sid :: rest =>
    match runResult sid with
    | .ok _ =>
      let acc := run_due_schedules runResult rest
      (.runSchedule sid :: acc.1, acc.2)
    | .error e => ([.runSchedule sid], some e)

/-- Embeds `ConfigBackupScheduler._tick` (lines 66-92): `pg_try_advisory_lock`
with key 86402021; when not granted return at once (no reads, runs or
writes); otherwise query the due schedules and run them, releasing the lock
in the `finally` block — also when the query or an individual run raises.
Returns the emitted action trace and the exception propagating out of the
tick, if any. -/
def scheduler_tick (locked : Bool) (dueQuery : Except String (List Nat))
    (runResult : Nat → Except String Unit) :
    List TickAction × Option String :=
  if !locked then ([.tryAdvisoryLock 86402021 false], none)
  else
    match dueQuery with
    | .error e =>
      ([.tryAdvisoryLock 86402021 true, .queryDueSchedules,
        .advisoryUnlock 86402021], some e)
    | .ok sids =>
      let acc := run_due_schedules runResult sids
      (.tryAdvisoryLock 86402021 true :: .queryDueSchedules ::
        (acc.1 ++ [.advisoryUnlock 86402021]), acc.2)

/-! ## Concrete fixtures used by witnesses -/

/-- The item the loop body appends for one command outcome. -/
def itemOfOutcome : String × CmdOutcome → CmdItem
  | (cmd, .success out) =>
    { command := cmd, failed := false, result := out, exception := none }
  | (cmd, .failure subErr eStr) =>
    { command := cmd, failed := true, result := none,
      exception := some (pyOrStr subErr eStr) }

/-- The key list of an embedded Python dict, in iteration order. -/
def keysOf {α} (m : List (String × α)) : List String :=
  m.map (fun p => p.1)

/-- Schedule used by the C4 witness. -/
def c4schedule : ScheduleState :=
  { enabled := true
    interval_minutes := 30
    last_run_at := none
    next_run_at := some 0
    last_status := none
    last_error := none }

/-- Pending job used by the C5 witness. -/
def c5job : JobState :=
  { status := "pending"
    started_at := none
    completed_at := none
    error_message := none
    results := none }

/-- Completed job used by the C9 witness. -/
def c9job : JobState :=
  { status := "completed"
    started_at := some 1
    completed_at := some 2
    error_message := none
    results := some [] }

/-- One concrete successful single `Result` used by the C1 witness. -/
def c1res : ResultR :=
  { result := .vstr "hostname r1"
    exception := none
    failed := false
    changed := false
    diff := none }

/-- Raw framework output of the C1 witness: only host "r1" answered. -/
def c1raw : List (String × HostRes) := [("r1", .single c1res)]

/-- Requested hosts of the C1 witness. -/
def c1hosts : List String := ["r1", "r2"]

end Network

namespace Network

/-! ## Generic list lemmas shared by the proofs -/

theorem find_q_eq_head_filter {α} (p : α → Bool) (l : List α) :
    l.find? p = (l.filter p).head? := by
  induction l with
  | nil => rfl
  | cons a l ih =>
    by_cases h : p a = true
    · rw [List.find?_cons_of_pos _ h, List.filter_cons_of_pos h]; rfl
    · rw [List.find?_cons_of_neg _ h, List.filter_cons_of_neg h, ih]

theorem find_q_reverse_eq_getLast_filter {α} (p : α → Bool) (l : List α) :
    l.reverse.find? p = (l.filter p).getLast? := by
  rw [find_q_eq_head_filter, List.filter_reverse, List.head?_reverse]


theorem itemOfOutcome_command (co : String × CmdOutcome) :
    (itemOfOutcome co).command = co.1 := by
  rcases co with ⟨c, oc⟩; cases oc <;> rfl

theorem itemOfOutcome_failed (co : String × CmdOutcome) :
    (itemOfOutcome co).failed = isFailureOutcome co.2 := by
  rcases co with ⟨c, oc⟩; cases oc <;> rfl

theorem multi_command_items_eq (outcomes : List (String × CmdOutcome)) :
    multi_command_items outcomes =
      (outcomes.map itemOfOutcome,
       outcomes.countP (fun co => isFailureOutcome co.2)) := by
  induction outcomes with
  | nil => rfl
  | cons co rest ih =>
    rcases co with ⟨cmd, oc⟩
    cases oc <;>
      simp [multi_command_items, ih, itemOfOutcome, isFailureOutcome,
        List.countP_cons]


theorem keysOf_format (raw : List (String × HostRes)) :
    keysOf (format_results raw) = keysOf raw := by
  simp only [keysOf, format_results, List.map_map]
  exact List.map_congr_left fun a _ => rfl

theorem hasHostKey_iff (m : List (String × Envelope)) (k : String) :
    hasHostKey m k = true ↔ k ∈ keysOf m := by
  simp [hasHostKey, keysOf, List.any_eq_true, List.mem_map]

theorem mem_keys_ensure_foldl (hs : List String) (m : List (String × Envelope))
    (x : String) :
    (x ∈ keysOf (hs.foldl
        (fun m h => if hasHostKey m h then m else m ++ [(h, fallbackEnvelope)]) m)) ↔
      x ∈ keysOf m ∨ x ∈ hs := by
  induction hs generalizing m with
  | nil => simp
  | cons h t ih =>
    simp only [List.foldl_cons]
    rw [ih]
    by_cases hk : hasHostKey m h = true
    · have hmem : h ∈ keysOf m := (hasHostKey_iff m h).mp hk
      simp only [hk, if_true]
      constructor
      · rintro (hx | hx)
        · exact Or.inl hx
        · exact Or.inr (List.mem_cons_of_mem _ hx)
      · rintro (hx | hx)
        · exact Or.inl hx
        · rcases List.mem_cons.mp hx with rfl | hx
          · exact Or.inl hmem
          · exact Or.inr hx
    · have happ : keysOf (m ++ [(h, fallbackEnvelope)]) = keysOf m ++ [h] := by
        simp only [keysOf, List.map_append, List.map_cons, List.map_nil]
      simp only [hk, if_false, Bool.false_eq_true, happ, List.mem_append,
        List.mem_cons, List.mem_singleton]
      tauto

theorem find_ensure_foldl_of_some (hs : List String)
    (m : List (String × Envelope)) (k : String) (e : String × Envelope)
    (hf : m.find? (fun p => p.1 == k) = some e) :
    ((hs.foldl
        (fun m h => if hasHostKey m h then m else m ++ [(h, fallbackEnvelope)]) m).find?
      (fun p => p.1 == k)) = some e := by
  induction hs generalizing m with
  | nil => exact hf
  | cons h t ih =>
    simp only [List.foldl_cons]
    apply ih
    by_cases hk : hasHostKey m h = true
    · simp only [hk, if_true]; exact hf
    · simp only [hk, if_false, Bool.false_eq_true]
      rw [List.find?_append, hf]
      rfl

theorem find_ensure_foldl_missing (hs : List String)
    (m : List (String × Envelope)) (k : String)
    (hnot : ∀ p ∈ m, p.1 ≠ k) (hk : k ∈ hs) :
    ((hs.foldl
        (fun m h => if hasHostKey m h then m else m ++ [(h, fallbackEnvelope)]) m).find?
      (fun p => p.1 == k)) = some (k, fallbackEnvelope) := by
  induction hs generalizing m with
  | nil => cases hk
  | cons h t ih =>
    simp only [List.foldl_cons]
    by_cases heq : h = k
    · subst heq
      have hnone : m.find? (fun p => p.1 == h) = none :=
        List.find?_eq_none.mpr (fun x hx => by simp [hnot x hx])
      have hkm : ¬ hasHostKey m h = true := by
        rw [hasHostKey_iff]
        intro hmem
        rcases List.mem_map.mp hmem with ⟨p, hp, hph⟩
        exact hnot p hp hph
      simp only [hkm, if_false, Bool.false_eq_true]
      have hfind : (m ++ [(h, fallbackEnvelope)]).find? (fun p => p.1 == h) =
          some (h, fallbackEnvelope) := by
        rw [List.find?_append, hnone]
        simp [List.find?]
      exact find_ensure_foldl_of_some t _ h _ hfind
    · have hkt : k ∈ t := by
        rcases List.mem_cons.mp hk with rfl | hx
        · exact absurd rfl heq
        · exact hx
      by_cases hkm : hasHostKey m h = true
      · simp only [hkm, if_true]
        exact ih m hnot hkt
      · simp only [hkm, if_false, Bool.false_eq_true]
        refine ih _ ?_ hkt
        intro p hp
        rcases List.mem_append.mp hp with hp | hp
        · exact hnot p hp
        · rcases List.mem_singleton.mp hp with rfl
          simpa using heq

theorem mem_keys_ensure (formatted : List (String × Envelope))
    (requested : List String) (x : String)
    (hsubk : ∀ y ∈ keysOf formatted, y ∈ requested) :
    (x ∈ keysOf (ensure_host_results formatted requested)) ↔ x ∈ requested := by
  unfold ensure_host_results
  by_cases he : requested.isEmpty = true
  · have hreq : requested = [] := List.isEmpty_iff.mp he
    subst hreq
    simp only [List.isEmpty_nil, if_true]
    constructor
    · intro hx; exact hsubk x hx
    · intro hx; cases hx
  · simp only [he, Bool.false_eq_true, if_false]
    by_cases hall : (!formatted.isEmpty &&
        requested.all (fun h => hasHostKey formatted h)) = true
    · simp only [hall, if_true]
      constructor
      · exact hsubk x
      · intro hx
        have h2 := (Bool.and_eq_true _ _).mp hall |>.2
        have := List.all_eq_true.mp h2 x hx
        exact (hasHostKey_iff formatted x).mp this
    · simp only [hall, Bool.false_eq_true, if_false]
      rw [mem_keys_ensure_foldl]
      constructor
      · rintro (hx | hx)
        · exact hsubk x hx
        · exact hx
      · exact Or.inr

theorem find_ensure_missing (formatted : List (String × Envelope))
    (requested : List String) (x : String)
    (hx : x ∈ requested) (hnx : x ∉ keysOf formatted) :
    (ensure_host_results formatted requested).find? (fun p => p.1 == x) =
      some (x, fallbackEnvelope) := by
  have hnot : ∀ p ∈ formatted, p.1 ≠ x := by
    intro p hp hpx
    exact hnx (hpx ▸ List.mem_map.mpr ⟨p, hp, rfl⟩)
  unfold ensure_host_results
  have he : ¬ requested.isEmpty = true := by
    intro h
    rw [List.isEmpty_iff.mp h] at hx
    cases hx
  have hall : ¬ (!formatted.isEmpty &&
      requested.all (fun h => hasHostKey formatted h)) = true := by
    intro h
    have h2 := (Bool.and_eq_true _ _).mp h |>.2
    have := List.all_eq_true.mp h2 x hx
    exact hnx ((hasHostKey_iff formatted x).mp this)
  simp only [he, hall, Bool.false_eq_true, if_false]
  exact find_ensure_foldl_missing requested formatted x hnot hx

theorem scanExceptionCandidate_eq_find (l : List ResultR) :
    scanExceptionCandidate l =
      l.find? (fun r => r.exception.isSome || hasTraceStr r) := by
  induction l with
  | nil => rfl
  | cons r rest ih =>
    simp only [scanExceptionCandidate, List.find?_cons]
    by_cases h1 : r.exception.isSome
    · simp [h1]
    · by_cases h2 : hasTraceStr r
      · simp [h1, h2]
      · simp [h1, h2, ih]

/-- C8: with Defaults `{"show ip*": 60}`, Group `{"show ip route": 90}`,
Host `{}`, resolution returns 90 for "show ip route" (exact match beats the
wildcard), 60 for "show ip arp" (wildcard prefix fallback), and none for
"show version" (no matching rule). -/
theorem resolve_timeout_c8_examples :
    resolve_timeout_ops_for_command c8host "show ip route" = some 90 ∧
    resolve_timeout_ops_for_command c8host "show ip arp" = some 60 ∧
    resolve_timeout_ops_for_command c8host "show version" = none := by
  decide

/-- C6 counterexample: on the merged map `{"show*": 10, "show ip*": 20}` and
command "show ip route", the code returns the FIRST matching wildcard in
insertion order (10), not the value of the longest matching prefix (20), so
the claimed longest-prefix rule is false on the code. -/
theorem resolve_timeout_longest_counterexample :
    resolve_timeout_ops_for_command c6host "show ip route" = some 10 ∧
    spec_resolve_longest c6host "show ip route" = some 20 ∧
    resolve_timeout_ops_for_command c6host "show ip route" ≠
      spec_resolve_longest c6host "show ip route" := by
  decide

/-- C6 (amended): exact match in the merged map wins; otherwise resolution
returns the value of the FIRST wildcard pattern in merged-map insertion order
whose prefix matches the command (not necessarily the longest); none if no
rule applies. -/
theorem resolve_timeout_first_wildcard (h : TimeoutHost) (command : String) :
    (∀ v, dictGet (mergedTimeouts h) command = some v →
        resolve_timeout_ops_for_command h command = some v) ∧
    (dictGet (mergedTimeouts h) command = none →
        resolve_timeout_ops_for_command h command =
          ((mergedTimeouts h).find? (fun p => wildcardMatches command p.1)).map
            (fun p => p.2)) := by
  constructor
  · intro v hv
    have hne : (mergedTimeouts h).isEmpty = false := by
      cases hm : mergedTimeouts h with
      | nil => rw [hm] at hv; simp [dictGet] at hv
      | cons a l => simp
    simp [resolve_timeout_ops_for_command, hne, hv]
  · intro hv
    cases hm : mergedTimeouts h with
    | nil => simp [resolve_timeout_ops_for_command, hm, dictGet]
    | cons a l =>
      rw [hm] at hv
      simp [resolve_timeout_ops_for_command, hm, hv]

/-- Witness for `resolve_timeout_first_wildcard` at the concrete C8 layering:
"show ip route" is an exact key of the merged map with value 90. -/
theorem resolve_timeout_first_wildcard_witness :
    resolve_timeout_ops_for_command c8host "show ip route" = some 90 :=
  (resolve_timeout_first_wildcard c8host "show ip route").1 90 (by decide)

/-- C3: when any requested host is not present in the inventory (and the
task payload itself is non-empty), the whole `run_send_command` call fails
with the "hosts not found" error naming the missing hosts, before any
per-host work begins — the outcome is this error for EVERY possible
framework fan-out `rawRun`, so no partial per-host result is produced. -/
theorem run_send_command_unknown_hosts (inventory hosts : List String)
    (command : String) (rawRun : List (String × HostRes))
    (hcmd : split_commands command ≠ [])
    (hmiss : ∃ h ∈ hosts, h ∉ inventory) :
    run_send_command inventory hosts command rawRun =
      .error ("主机不存在: " ++
        toString (hosts.filter (fun h => !inventory.contains h))) := by
  rcases hmiss with ⟨h, hh, hni⟩
  have hmem : h ∈ hosts.filter (fun h => !inventory.contains h) :=
    List.mem_filter.mpr ⟨hh, by simp [hni]⟩
  have hne : (hosts.filter (fun h => !inventory.contains h)).isEmpty = false := by
    cases hf : hosts.filter (fun h => !inventory.contains h) with
    | nil => rw [hf] at hmem; cases hmem
    | cons a l => rfl
  have hcmd' : (split_commands command).isEmpty = false := by
    cases hc : split_commands command with
    | nil => exact absurd hc hcmd
    | cons a l => rfl
  unfold run_send_command validate_hosts_exist
  simp only [hcmd', hne, Bool.false_eq_true, if_false]

/-- Witness for `run_send_command_unknown_hosts`: requesting known "r1" and
unknown "ghost" with a non-empty command fails whole with the hosts-not-found
error, independent of any framework output. -/
theorem run_send_command_unknown_hosts_witness :
    run_send_command ["r1"] ["r1", "ghost"] "show version" [] =
      .error ("主机不存在: " ++
        toString ((["r1", "ghost"] : List String).filter
          (fun h => !(["r1"] : List String).contains h))) :=
  run_send_command_unknown_hosts ["r1"] ["r1", "ghost"] "show version" []
    (by decide) ⟨"ghost", by decide, by decide⟩

/-- C7 counterexample: on a chain whose first sub-step carries an explicit
error "boom" and whose last sub-step only carries a Traceback-marked string,
the code's backward scan picks the LAST sub-step (the Traceback one), while
the claimed rule (explicit error preferred globally) picks the first, so the
produced envelope differs from the claim's prediction. -/
theorem format_results_primary_counterexample :
    (formatMulti cex7).exception = some "ValueError: bad value" ∧
    claimed_exception cex7 = some "boom" ∧
    (formatMulti cex7).exception ≠ claimed_exception cex7 ∧
    (formatMulti cex7).result =
      .vstr "Traceback (most recent call last):\n  ValueError: bad value" ∧
    ((claimed_primary cex7).map (fun r => r.result)).getD .vnone =
      .vstr "step one output" := by
  decide

/-- C7 (amended): the primary sub-step is the last one that carries an
explicit error OR whose textual result contains a stack-trace marker (one
backward scan with a disjunctive test, not error-preference first);
otherwise the first sub-step when its result is a primitive or structured
value (not a nested multi-step result), else the last sub-step; the
envelope's exception is derived from that primary's error field, or absent
that, from the last non-empty line of its Traceback-marked textual
result. -/
theorem formatMulti_amended_primary (rs : List ResultR) :
    (formatMulti rs).result =
      ((amended_primary rs).map (fun r => r.result)).getD .vnone ∧
    (formatMulti rs).exception = derive_exception (amended_primary rs) := by
  have hscan : scanExceptionCandidate rs.reverse =
      (rs.filter (fun r => r.exception.isSome || hasTraceStr r)).getLast? := by
    rw [scanExceptionCandidate_eq_find, find_q_reverse_eq_getLast_filter]
  simp only [formatMulti, amended_primary, hscan]
  cases hg : (rs.filter fun r => r.exception.isSome || hasTraceStr r).getLast? with
  | some c => exact ⟨rfl, rfl⟩
  | none =>
    cases hh : rs.head? with
    | none =>
      have hnil : rs = [] := List.head?_eq_none_iff.mp hh
      subst hnil
      exact ⟨rfl, rfl⟩
    | some parent =>
      by_cases hp : (!isMultiValue parent.result && isPyPrimOrStruct parent.result) = true
      · simp [hp]
      · simp [hp]

/-- C4: after every schedule execution, success or failure (including an
exception escaping the snapshot call), `last_run_at` is set to now,
`last_status` and `last_error` are set (`last_error` null on a normal
return), `next_run_at` is unconditionally advanced to now plus
`interval_minutes`, and the `enabled` flag stays true. -/
theorem scheduler_run_one_always_reschedules (s : ScheduleState) (now : Nat)
    (outcome : SnapshotOutcome) (hen : s.enabled = true) :
    (let s₂ := ((scheduler_run_one (some s) now outcome).1).getD s
     s₂.last_run_at = some now ∧
     s₂.next_run_at = some (now + 60 * s.interval_minutes) ∧
     s₂.enabled = true ∧
     s₂.interval_minutes = s.interval_minutes ∧
     s₂.last_status.isSome = true ∧
     s₂.last_error = (match outcome with
       | .ok _ => none
       | .exc msg => some msg)) := by
  cases outcome <;> simp [scheduler_run_one, hen]


/-- Witness for `scheduler_run_one_always_reschedules`: a failed run at
time 1000 still reschedules the enabled schedule to 1000 + 30 minutes. -/
theorem scheduler_run_one_always_reschedules_witness :
    (let s₂ := ((scheduler_run_one (some c4schedule) 1000
        (SnapshotOutcome.exc "boom")).1).getD c4schedule
     s₂.last_run_at = some 1000 ∧
     s₂.next_run_at = some (1000 + 60 * c4schedule.interval_minutes) ∧
     s₂.enabled = true ∧
     s₂.interval_minutes = c4schedule.interval_minutes ∧
     s₂.last_status.isSome = true ∧
     s₂.last_error = some "boom") :=
  scheduler_run_one_always_reschedules c4schedule 1000 (.exc "boom") rfl

/-- C5: when the dispatch path returns normally, the job's terminal status
is "failed" iff at least one per-host envelope reports `failed`, and
"completed" otherwise; when an exception escapes the dispatch path, the
status is "failed" with the exception text recorded in the job's error
field, and the exception is re-raised to the worker. -/
theorem execute_task_terminal_status (t : JobState) (now : Nat)
    (outcome : DispatchOutcome) (hp : t.status = "pending") :
    (let e := execute_task (some t) now outcome
     let t₂ := e.job.getD t
     match outcome with
     | .ok results =>
       (t₂.status = "failed" ↔ results.any (fun p => p.2.failed) = true) ∧
       (t₂.status = "completed" ↔ results.any (fun p => p.2.failed) = false) ∧
       e.raised = none
     | .exc msg =>
       t₂.status = "failed" ∧ t₂.error_message = some msg ∧
       e.raised = some msg) := by
  have hnp : ¬ t.status ≠ "pending" := by simp [hp]
  cases outcome with
  | ok results =>
    by_cases hf : results.any (fun p => p.2.failed) = true
    · simp [execute_task, hnp, hf]
    · simp [execute_task, hnp, hf]
  | exc msg => simp [execute_task, hnp]


/-- Witness for `execute_task_terminal_status`: an exception escaping the
dispatch path marks the job failed, records the text and re-raises. -/
theorem execute_task_terminal_status_witness :
    (let e := execute_task (some c5job) 5 (DispatchOutcome.exc "boom")
     let t₂ := e.job.getD c5job
     t₂.status = "failed" ∧ t₂.error_message = some "boom" ∧
     e.raised = some "boom") :=
  execute_task_terminal_status c5job 5 (.exc "boom") rfl

/-- C9: executing a job whose status is not "pending" (or whose id does not
exist) is a complete no-op — the job row is unchanged, no logs are purged
or written, nothing is dispatched and nothing is raised; duplicate
submissions therefore execute a job at most once. -/
theorem execute_task_not_pending_noop (job : Option JobState) (now : Nat)
    (outcome : DispatchOutcome)
    (h : ∀ t, job = some t → t.status ≠ "pending") :
    execute_task job now outcome =
      { job := job, purged_logs := false, written_logs := [],
        dispatched := false, raised := none } := by
  cases job with
  | none => rfl
  | some t =>
    have ht := h t rfl
    simp [execute_task, ht]


/-- Witness for `execute_task_not_pending_noop`: re-submitting a completed
job changes nothing and dispatches nothing. -/
theorem execute_task_not_pending_noop_witness :
    execute_task (some c9job) 7 (DispatchOutcome.exc "dup") =
      { job := some c9job, purged_logs := false, written_logs := [],
        dispatched := false, raised := none } :=
  execute_task_not_pending_noop (some c9job) 7 (.exc "dup")
    (fun t ht => by injection ht with h2; subst h2; decide)

theorem run_due_schedules_actions (runResult : Nat → Except String Unit)
    (sids : List Nat) :
    ∀ a ∈ (run_due_schedules runResult sids).1, ∃ sid, a = .runSchedule sid := by
  induction sids with
  | nil => intro a ha; cases ha
  | cons sid rest ih =>
    intro a ha
    simp only [run_due_schedules] at ha
    cases hr : runResult sid with
    | ok u =>
      rw [hr] at ha
      rcases List.mem_cons.mp ha with rfl | ha
      · exact ⟨sid, rfl⟩
      · exact ih a ha
    | error e =>
      rw [hr] at ha
      rcases List.mem_singleton.mp ha with rfl
      exact ⟨sid, rfl⟩

/-- C10: every tick that acquires the advisory lock (key 86402021) begins
with the grant and ends with the matching `pg_advisory_unlock` — exactly one
unlock, emitted also when the due-schedule query or an individual schedule
run raises; a tick that fails to acquire the lock emits nothing but the
failed lock attempt (no reads, runs or writes). -/
theorem scheduler_tick_lock_discipline (locked : Bool)
    (dueQuery : Except String (List Nat))
    (runResult : Nat → Except String Unit) :
    (let tr := (scheduler_tick locked dueQuery runResult).1
     match locked with
     | false => tr = [.tryAdvisoryLock 86402021 false]
     | true =>
       tr.head? = some (.tryAdvisoryLock 86402021 true) ∧
       tr.getLast? = some (.advisoryUnlock 86402021) ∧
       tr.count (.advisoryUnlock 86402021) = 1) := by
  cases locked with
  | false => rfl
  | true =>
    cases dueQuery with
    | error e => refine ⟨rfl, rfl, rfl⟩
    | ok sids =>
      have hacts := run_due_schedules_actions runResult sids
      refine ⟨rfl, ?_, ?_⟩
      · show (TickAction.tryAdvisoryLock 86402021 true ::
            TickAction.queryDueSchedules ::
            ((run_due_schedules runResult sids).1 ++
              [TickAction.advisoryUnlock 86402021])).getLast? =
          some (TickAction.advisoryUnlock 86402021)
        rw [← List.cons_append, ← List.cons_append]
        exact List.getLast?_concat _
      · show (TickAction.tryAdvisoryLock 86402021 true ::
            TickAction.queryDueSchedules ::
            ((run_due_schedules runResult sids).1 ++
              [TickAction.advisoryUnlock 86402021])).count
            (TickAction.advisoryUnlock 86402021) = 1
        have hz : (run_due_schedules runResult sids).1.count
            (TickAction.advisoryUnlock 86402021) = 0 := by
          rw [List.count_eq_zero]
          intro hmem
          rcases hacts _ hmem with ⟨sid, hsid⟩
          cases hsid
        rw [List.count_cons, List.count_cons, List.count_append, hz]
        rfl

/-- C1: for a valid (all-known) host list, the map returned by a dispatch
operation after `format_results` and `ensure_host_results` has key set
exactly the requested hosts — every requested host has an envelope entry
(a synthesized failed envelope with the "no result returned" exception when
the framework returned none for it), and no host outside the request
appears.  The hypothesis `hsub` is the framework filter guarantee: the raw
run result only contains requested hosts. -/
theorem dispatch_results_covers_hosts (raw : List (String × HostRes))
    (hosts : List String) (hsub : ∀ p ∈ raw, p.1 ∈ hosts) :
    (∀ x, (x ∈ keysOf (dispatch_results raw hosts)) ↔ x ∈ hosts) ∧
    (∀ x, x ∈ hosts → x ∉ keysOf raw →
      (dispatch_results raw hosts).find? (fun p => p.1 == x) =
        some (x, fallbackEnvelope)) ∧
    fallbackEnvelope.failed = true ∧
    fallbackEnvelope.exception = some "未返回结果（可能是过滤/热重载导致的空结果）" := by
  have hkf := keysOf_format raw
  have hsubk : ∀ y ∈ keysOf (format_results raw), y ∈ hosts := by
    rw [hkf]
    intro y hy
    rcases List.mem_map.mp hy with ⟨p, hp, rfl⟩
    exact hsub p hp
  refine ⟨?_, ?_, rfl, rfl⟩
  · intro x
    exact mem_keys_ensure _ hosts x hsubk
  · intro x hxh hxk
    exact find_ensure_missing _ hosts x hxh (by rw [hkf]; exact hxk)


/-- Witness for `dispatch_results_covers_hosts`: host "r2" requested but
absent from the raw result gets the synthesized failed envelope. -/
theorem dispatch_results_covers_hosts_witness :
    (("r2" ∈ keysOf (dispatch_results c1raw c1hosts)) ↔ "r2" ∈ c1hosts) ∧
    (dispatch_results c1raw c1hosts).find? (fun p => p.1 == "r2") =
      some ("r2", fallbackEnvelope) :=
  ⟨(dispatch_results_covers_hosts c1raw c1hosts (by decide)).1 "r2",
   (dispatch_results_covers_hosts c1raw c1hosts (by decide)).2.1 "r2"
     (by decide) (by decide)⟩

/-- C2: in a multi-command sequence, a failing command does not abort the
remaining ones — every command, before and after a failure, has an entry (in
order, with its own failed flag) in the structured `commands` list of the
per-host result; the per-host outcome is failed exactly when at least one
command failed; and the aggregate exception text states the number of failed
commands. -/
theorem per_host_task_multi_retains_all (outcomes : List (String × CmdOutcome)) :
    (per_host_task_multi outcomes).commands.map (fun it => it.command) =
      outcomes.map (fun co => co.1) ∧
    (per_host_task_multi outcomes).commands.map (fun it => it.failed) =
      outcomes.map (fun co => isFailureOutcome co.2) ∧
    ((per_host_task_multi outcomes).failed = true ↔
      0 < outcomes.countP (fun co => isFailureOutcome co.2)) ∧
    (per_host_task_multi outcomes).exception =
      (if 0 < outcomes.countP (fun co => isFailureOutcome co.2) then
        some (toString (outcomes.countP (fun co => isFailureOutcome co.2)) ++
          " 个命令执行失败")
      else none) := by
  refine ⟨?_, ?_, ?_, ?_⟩
  · simp only [per_host_task_multi, multi_command_items_eq, List.map_map]
    exact List.map_congr_left fun a _ => itemOfOutcome_command a
  · simp only [per_host_task_multi, multi_command_items_eq, List.map_map]
    exact List.map_congr_left fun a _ => itemOfOutcome_failed a
  · simp [per_host_task_multi, multi_command_items_eq]
  · simp only [per_host_task_multi, multi_command_items_eq]

end Network
